import Mathlib

/-!
Verification development for the res_json Asterisk module (src/res_json.c).
The JSON value tree, the slash path walking and the operations jsonelement
(Get), jsonadd (Add), jsonset (Set), jsondelete (Delete) and jsonvariables
(Simple Object Import) are embedded as executable Lean functions.  The two
external collaborators, the JSON text parser (ast_json_load_string) and the
serializer (ast_json_dump_string_format), are consumed as black boxes in
the C module and are therefore passed in as function parameters here.
Numeric payloads of JSON reals are modelled over the rationals; machine
integer truncation is made explicit where the module casts to int.
-/

/-- Operation result codes, mirroring the ASTJSON numeric defines of
res_json.c (OK = 0 through DELETE_FAILED = 8). -/
inductive ASTJSON where
  | OK
  | UNDECIDED
  | ARG_NEEDED
  | PARSE_ERROR
  | NOTFOUND
  | INVALID_TYPE
  | ADD_FAILED
  | SET_FAILED
  | DELETE_FAILED
deriving DecidableEq, Repr

/-- JSON value tree as handled through the ast_json (jansson) wrapper:
false and true collapse into a boolean payload, numbers keep the integer
versus real storage distinction, arrays are ordered sequences and object
members keep insertion order with unique keys.  Real payloads are modelled
over the rationals. -/
inductive Json where
  | null
  | bool (b : Bool)
  | integer (n : Int)
  | real (q : Rat)
  | str (s : String)
  | arr (elems : List Json)
  | obj (members : List (String × Json))

/-- Character class of isspace in the C locale, skipped by an sscanf
numeric conversion. -/
def isSpaceC (c : Char) : Bool :=
  c = ' ' || c = '\t' || c = '\n' || c = '\x0b' || c = '\x0c' || c = '\r'

/-- Value of a run of decimal digits read left to right. -/
def digitsToNat (cs : List Char) : Nat :=
  cs.foldl (fun a c => a * 10 + (c.toNat - 48)) 0

/-- Digits accepted by a bounded-width sscanf integer conversion: at most
w further characters are examined and the leading run of decimal digits
among them is converted; no digit at all is a matching failure. -/
def scanDigits (cs : List Char) (w : Nat) : Option Nat :=
  let ds := (cs.take w).takeWhile Char.isDigit
  if ds = [] then none else some (digitsToNat ds)

/-- Model of sscanf(segment, "%3d", &ixarray): skip isspace characters,
read an optional sign and then decimal digits, sign and digits together
limited to a field width of three characters; the conversion succeeds when
at least one digit was read.  The scan does not require the whole segment
to be consumed. -/
def scanIndexL (cs0 : List Char) : Option Int :=
  let cs := cs0.dropWhile isSpaceC
  match cs with
  | [] => none
  | c :: rest =>
    if c = '-' then
      match scanDigits rest 2 with
      | none => none
      | some n => some (-(n : Int))
    else if c = '+' then
      match scanDigits rest 2 with
      | none => none
      | some n => some ((n : Int))
    else
      match scanDigits (c :: rest) 3 with
      | none => none
      | some n => some ((n : Int))

/-- ast_json_array_get: array lookup by position; the int index is
converted to size_t by the callee, so a negative index is out of range. -/
def jsonArrayGet (j : Json) (i : Int) : Option Json :=
  match j with
  | .arr xs => if 0 ≤ i then xs.get? i.toNat else none
  | _ => none

/-- First binding of a key in an ordered member list. -/
def lookupKey : List (String × Json) → String → Option Json
  | [], _ => none
  | (k, v) :: rest, key => if k = key then some v else lookupKey rest key

/-- ast_json_object_get: object member lookup by key. -/
def jsonObjectGet (j : Json) (k : String) : Option Json :=
  match j with
  | .obj kvs => lookupKey kvs k
  | _ => none

/-- ast_json_object_set on a member list: replace in place at the
first-seen position of an existing key, append a fresh key. -/
def objSet : List (String × Json) → String → Json → List (String × Json)
  | [], key, v => [(key, v)]
  | (k, w) :: rest, key, v =>
    if k = key then (key, v) :: rest else (k, w) :: objSet rest key v

/-- ast_json_object_del applied until the key is gone; parsed documents
have unique keys, so this is the single removal the module performs. -/
def objDelAll : List (String × Json) → String → List (String × Json)
  | [], _ => []
  | (k, w) :: rest, key =>
    if k = key then objDelAll rest key else (k, w) :: objDelAll rest key

/-- Split on every '/' character: the token sequence produced by repeated
strsep(&thispath, "/") calls.  Tokens may be empty and the result is never
the empty list. -/
def splitSlash : List Char → List (List Char)
  | [] => [[]]
  | c :: rest =>
    if c = '/' then [] :: splitSlash rest
    else
      match splitSlash rest with
      | [] => [[c]]
      | t :: ts => (c :: t) :: ts

/-- Strip one leading and then one trailing slash, as done before every
path walk in res_json.c. -/
def stripSlashes (cs : List Char) : List Char :=
  let cs1 :=
    match cs with
    | '/' :: rest => rest
    | _ => cs
  match cs1.getLast? with
  | some c => if c = '/' then cs1.dropLast else cs1
  | none => cs1

/-- Path segments of a path string, after slash stripping. -/
def pathSegs (p : String) : List (List Char) :=
  splitSlash (stripSlashes p.data)

/-- One resolution step, shared verbatim by all four operations: a segment
whose sscanf %3d scan succeeds is used as an array index, any other
segment is used as an object key. -/
def pathLookup (j : Json) (seg : List Char) : Option Json :=
  match scanIndexL seg with
  | some i => jsonArrayGet j i
  | none => jsonObjectGet j (String.mk seg)

/-- Walk a whole segment list, failing at the first segment that cannot be
followed. -/
def resolvePath : Json → List (List Char) → Option Json
  | j, [] => some j
  | j, seg :: rest =>
    match pathLookup j seg with
    | none => none
    | some child => resolvePath child rest

/-- Reduction of a stored 64-bit json integer to int, the (int) cast the
module applies before printing with %d: two's complement wrap into the
interval from -2^31 to 2^31 - 1. -/
def wrap32 (n : Int) : Int :=
  (n + 2147483648) % 4294967296 - 2147483648

/-- %f rendering of a (rational-modelled) real: sign, integer part and six
decimals. -/
def formatF6 (q : Rat) : String :=
  let n : Int := round (|q| * 1000000)
  let ip := n / 1000000
  let fr := (n % 1000000).toNat
  let frs := toString fr
  let pad := String.mk (List.replicate (6 - frs.length) '0')
  (if q < 0 then "-" else "") ++ toString ip ++ "." ++ pad ++ frs

/-- JSONTYPE tag reported by jsonelement_exec for each node kind. -/
def typeName : Json → String
  | .bool _ => "bool"
  | .null => "null"
  | .integer _ => "number"
  | .real _ => "number"
  | .str _ => "string"
  | .arr _ => "array"
  | .obj _ => "node"

/-- Scalar rendering of a resolved node in jsonelement_exec; containers
are serialized compactly through the external dump collaborator. -/
def renderValue (dump : Json → String) (j : Json) : String :=
  match j with
  | .bool false => "0"
  | .bool true => "1"
  | .null => ""
  | .integer n => toString (wrap32 n)
  | .real q => formatF6 q
  | .str s => s
  | .arr _ => dump j
  | .obj _ => dump j

/-- Per-key rendering of jsonvariables_exec: arrays render as the literal
placeholder text and nested objects are serialized. -/
def renderVar (dump : Json → String) (j : Json) : String :=
  match j with
  | .bool false => "0"
  | .bool true => "1"
  | .null => ""
  | .integer n => toString (wrap32 n)
  | .real q => formatF6 q
  | .str s => s
  | .arr _ => "!array!"
  | .obj _ => dump j

/-- Exponent part of the atof grammar after the e marker: optional sign
then digits; without at least one digit the exponent part is not consumed
and counts as zero. -/
def atofExp (cs : List Char) : Int :=
  match cs with
  | '-' :: rest =>
    match rest.takeWhile Char.isDigit with
    | [] => 0
    | ds => -(digitsToNat ds : Int)
  | '+' :: rest =>
    match rest.takeWhile Char.isDigit with
    | [] => 0
    | ds => (digitsToNat ds : Int)
  | _ =>
    match cs.takeWhile Char.isDigit with
    | [] => 0
    | ds => (digitsToNat ds : Int)

/-- Unsigned part of the atof grammar, applied after sign handling:
digits, an optional point with fraction digits, and an optional exponent;
when neither integer nor fraction digits are present nothing is converted
and the magnitude is zero. -/
def atofMag (cs2 : List Char) : Rat :=
  let ip := cs2.takeWhile Char.isDigit
  let cs3 := cs2.dropWhile Char.isDigit
  let fp :=
    match cs3 with
    | '.' :: rest => rest.takeWhile Char.isDigit
    | _ => []
  let cs4 :=
    match cs3 with
    | '.' :: rest => rest.dropWhile Char.isDigit
    | _ => cs3
  if ip = [] && fp = [] then 0
  else
    let mant : Rat := (digitsToNat ip : Rat) + (digitsToNat fp : Rat) / ((10 : Rat) ^ fp.length)
    let ex : Int :=
      match cs4 with
      | 'e' :: rest => atofExp rest
      | 'E' :: rest => atofExp rest
      | _ => 0
    mant * (10 : Rat) ^ ex

/-- Decimal strtod/atof grammar over the rationals: an optional isspace
run, an optional sign, then the unsigned magnitude; an empty subject
sequence yields zero.  (Hexadecimal, infinity and nan spellings and
double rounding are outside this model; the module feeds the result to
ast_json_real_create.) -/
def atofL (cs0 : List Char) : Rat :=
  match cs0.dropWhile isSpaceC with
  | [] => atofMag []
  | c :: rest =>
    if c = '-' then -(atofMag rest)
    else if c = '+' then atofMag rest
    else atofMag (c :: rest)

/-- atof on a string argument. -/
def atofQ (s : String) : Rat := atofL s.data

/-- Whether, at the start of the unsigned part, neither a digit nor a
point followed by a digit appears: atof then converts nothing. -/
def headNotNumeric (cs2 : List Char) : Bool :=
  match cs2 with
  | [] => true
  | c :: rest =>
    if c = '.' then
      match rest with
      | [] => true
      | d :: _ => !d.isDigit
    else !c.isDigit

/-- Whether the atof subject sequence of a raw value string is empty:
after optional isspace and one optional sign nothing numeric follows, so
atof converts nothing and returns zero. -/
def atofSubjectEmpty (s : String) : Bool :=
  match s.data.dropWhile isSpaceC with
  | [] => headNotNumeric []
  | c :: rest =>
    if c = '-' then headNotNumeric rest
    else if c = '+' then headNotNumeric rest
    else headNotNumeric (c :: rest)

/-- tolower in the C locale for ASCII characters. -/
def lowerC (c : Char) : Char :=
  if 'A' ≤ c ∧ c ≤ 'Z' then Char.ofNat (c.toNat + 32) else c

/-- strcasecmp(a, b) == 0 for ASCII arguments. -/
def strieq (a b : String) : Bool := a.data.map lowerC == b.data.map lowerC

/-- Boolean reading shared by jsonadd and jsonset: a missing or empty
value and the spellings 0, n, no, f, false (case insensitive) are false;
anything else is true. -/
def parseBoolVal (v : String) : Bool :=
  !(v == "" || strieq v "0" || strieq v "no" || strieq v "n" ||
    strieq v "false" || strieq v "f")

/-- New element construction from the jsonadd type tag: the ladder of
strcasecmp tests in jsonadd_exec.  An empty tag and an unrecognized tag
are both rejected (the module reports ARG_NEEDED for either).  A number
tag always builds a real via atof, never an integer, and the recognized
tag for an object container is node. -/
def mkNewObject (typ value : String) : Option Json :=
  if typ = "" then none
  else if strieq typ "bool" then some (Json.bool (parseBoolVal value))
  else if strieq typ "null" then some Json.null
  else if strieq typ "number" then some (Json.real (atofQ value))
  else if strieq typ "string" then some (Json.str value)
  else if strieq typ "array" then some (Json.arr [])
  else if strieq typ "node" then some (Json.obj [])
  else none

/-- The in-place mutation of a located child, rendered functionally: the
parent's slot that pathLookup followed now holds the updated child.  Used
where the C code mutates a subtree it reached through the walk. -/
def updateSlot (parent : Json) (seg : List Char) (child : Json) : Json :=
  match scanIndexL seg with
  | some i =>
    match parent with
    | .arr xs => if 0 ≤ i ∧ i.toNat < xs.length then .arr (xs.set i.toNat child) else parent
    | _ => parent
  | none =>
    match parent with
    | .obj kvs => .obj (objSet kvs (String.mk seg) child)
    | _ => parent

/-- Final write of jsonset_exec: replace the parent's slot at the last
segment, ast_json_array_set for an array parent (failing out of range)
and ast_json_object_set for an object parent; any other parent type is
SET_FAILED.  When the array branch is reachable the last segment scanned
as an index, so the scan is re-read here in place of the C ixarray
variable. -/
def writeSlot (parent : Json) (seg : List Char) (v : Json) : ASTJSON × Json :=
  match parent with
  | .arr xs =>
    match scanIndexL seg with
    | some i =>
      if 0 ≤ i ∧ i.toNat < xs.length then (ASTJSON.OK, .arr (xs.set i.toNat v))
      else (ASTJSON.SET_FAILED, parent)
    | none => (ASTJSON.SET_FAILED, parent)
  | .obj kvs => (ASTJSON.OK, .obj (objSet kvs (String.mk seg) v))
  | _ => (ASTJSON.SET_FAILED, parent)

/-- Replacement value construction of jsonset_exec, switching on the type
of the node currently at the path.  Null and array nodes build nothing
(the caller then reports INVALID_TYPE); an object node parses the raw
value as JSON text through the external parser.  The C switch lacks a
break after the INTEGER case, so execution falls through into the STRING
case and the freshly made integer is overwritten by a string value. -/
def coerceSet (parse : String → Option Json) (cur : Json) (value : String) : Option Json :=
  match cur with
  | .bool _ => some (Json.bool (parseBoolVal value))
  | .null => none
  | .real _ => some (Json.real (atofQ value))
  | .integer _ => some (Json.str value)
  | .str _ => some (Json.str value)
  | .arr _ => none
  | .obj _ => parse value

/-- The jsonset_exec path loop: follow each segment; at the last segment
build the replacement from the current node's type and rewrite the
parent's slot; a failed lookup is NOTFOUND, a failed construction is
INVALID_TYPE. -/
def setWalk (parse : String → Option Json) (thisobject : Json)
    (seg : List Char) (rest : List (List Char)) (value : String) : ASTJSON × Json :=
  match pathLookup thisobject seg with
  | none => (ASTJSON.NOTFOUND, thisobject)
  | some nextobject =>
    match rest with
    | [] =>
      match coerceSet parse nextobject value with
      | none => (ASTJSON.INVALID_TYPE, thisobject)
      | some newobject => writeSlot thisobject seg newobject
    | r :: rs =>
      let res := setWalk parse nextobject r rs value
      (res.1, updateSlot thisobject seg res.2)

/-- Insertion switch shared by the root case and the end of the jsonadd
path walk: append to an array (the name is ignored), insert or replace in
an object under the given name, ADD_FAILED on any other node. -/
def addInto (dst : Json) (name : String) (v : Json) : ASTJSON × Json :=
  match dst with
  | .arr xs => (ASTJSON.OK, .arr (xs ++ [v]))
  | .obj kvs => (ASTJSON.OK, .obj (objSet kvs name v))
  | _ => (ASTJSON.ADD_FAILED, dst)

/-- The jsonadd_exec path loop: follow each segment, and at the last
segment insert into the located node itself. -/
def addWalk (thisobject : Json) (seg : List Char) (rest : List (List Char))
    (name : String) (v : Json) : ASTJSON × Json :=
  match pathLookup thisobject seg with
  | none => (ASTJSON.NOTFOUND, thisobject)
  | some nextobject =>
    match rest with
    | [] =>
      let res := addInto nextobject name v
      (res.1, updateSlot thisobject seg res.2)
    | r :: rs =>
      let res := addWalk nextobject r rs name v
      (res.1, updateSlot thisobject seg res.2)

/-- Tail phase of the jsondelete_exec loop.  Because the strsep result at
the bottom of that loop shadows the loop variable, once the remaining
path is exhausted the loop keeps looking up the first segment in the
current node and removing it until the lookup fails: an object loses the
addressed key once, an array loses the addressed index and then every
following element; a failed first lookup leaves NOTFOUND. -/
def purgeSlot (t : Json) (seg : List Char) : ASTJSON × Json :=
  match scanIndexL seg with
  | some i =>
    match t with
    | .arr xs =>
      if 0 ≤ i ∧ i.toNat < xs.length then (ASTJSON.OK, .arr (xs.take i.toNat))
      else (ASTJSON.NOTFOUND, t)
    | _ => (ASTJSON.NOTFOUND, t)
  | none =>
    match t with
    | .obj kvs =>
      if (lookupKey kvs (String.mk seg)).isSome then
        (ASTJSON.OK, .obj (objDelAll kvs (String.mk seg)))
      else (ASTJSON.NOTFOUND, t)
    | _ => (ASTJSON.NOTFOUND, t)

/-- The jsondelete_exec loop.  The inner declaration char *pathpiece
shadows the loop variable, so every lookup reuses the first segment; the
loop therefore descends depth levels (one per further segment) always by
the first segment, then purges the first segment from the node reached. -/
def deleteWalk (t : Json) (seg : List Char) : Nat → ASTJSON × Json
  | 0 => purgeSlot t seg
  | d + 1 =>
    match pathLookup t seg with
    | none => (ASTJSON.NOTFOUND, t)
    | some child =>
      let res := deleteWalk child seg d
      (res.1, updateSlot t seg res.2)

/-- Common tail of the mutating operations: serialize the document and
store it back into the document variable exactly when the result code is
OK, otherwise store nothing. -/
def writeGate (dump : Json → String) (r : ASTJSON × Json) : ASTJSON × Option String :=
  (r.1, if r.1 = ASTJSON.OK then some (dump r.2) else none)

/-- jsonset_exec from the parsed document on: an empty stripped path is
rejected as NOTFOUND before the walk. -/
def jsonsetCore (parse : String → Option Json) (doc : Json)
    (path value : String) : ASTJSON × Json :=
  match stripSlashes path.data with
  | [] => (ASTJSON.NOTFOUND, doc)
  | c :: cs =>
    match splitSlash (c :: cs) with
    | [] => (ASTJSON.NOTFOUND, doc)
    | seg :: rest => setWalk parse doc seg rest value

/-- jsonadd_exec from the parsed document on: an empty stripped path adds
at the root, any other path is walked to the insertion node. -/
def jsonaddCore (doc : Json) (path name : String) (newobject : Json) : ASTJSON × Json :=
  match stripSlashes path.data with
  | [] => addInto doc name newobject
  | c :: cs =>
    match splitSlash (c :: cs) with
    | [] => (ASTJSON.NOTFOUND, doc)
    | seg :: rest => addWalk doc seg rest name newobject

/-- jsondelete_exec from the parsed document on: the loop descends by the
first segment once per further segment and then purges the first segment
at the node reached. -/
def jsondeleteCore (doc : Json) (path : String) : ASTJSON × Json :=
  match splitSlash (stripSlashes path.data) with
  | [] => (ASTJSON.NOTFOUND, doc)
  | seg :: rest => deleteWalk doc seg rest.length

/-- jsonelement_exec from the parsed document on: resolve the path and
report the rendered value together with the JSONTYPE tag. -/
def jsonelementCore (dump : Json → String) (doc : Json)
    (path : String) : ASTJSON × String × Option String :=
  match resolvePath doc (pathSegs path) with
  | none => (ASTJSON.NOTFOUND, "", none)
  | some node => (ASTJSON.OK, renderValue dump node, some (typeName node))

/-- The JSONELEMENT read function.  Arguments: the document variable name,
the path, and the text the variable store returns for that name.  Result:
the JSONRESULT code, the output buffer, and the JSONTYPE tag if set.
With an empty path the C code copies args.json, the variable NAME, into
the output buffer (not the variable's contents) and reports OK without
parsing anything. -/
def jsonelement_exec (parse : String → Option Json) (dump : Json → String)
    (jsonvar path source : String) : ASTJSON × String × Option String :=
  if jsonvar = "" then (ASTJSON.ARG_NEEDED, "", none)
  else if path = "" then (ASTJSON.OK, jsonvar, none)
  else
    match parse source with
    | none => (ASTJSON.PARSE_ERROR, "", none)
    | some doc => jsonelementCore dump doc path

/-- The jsonvariables application.  Arguments: the document variable name
and the text held in it.  Result: the JSONRESULT code and the per-key
variable assignments in iteration order.  A document whose root is not an
object gives a null object iterator, so the code jumps to the exit label
and reports OK having set nothing. -/
def jsonvariables_exec (parse : String → Option Json) (dump : Json → String)
    (jsonvar source : String) : ASTJSON × List (String × String) :=
  if jsonvar = "" then (ASTJSON.ARG_NEEDED, [])
  else
    match parse source with
    | none => (ASTJSON.PARSE_ERROR, [])
    | some doc =>
      match doc with
      | .obj kvs => (ASTJSON.OK, kvs.map (fun kv => (kv.1, renderVar dump kv.2)))
      | _ => (ASTJSON.OK, [])

/-- The jsonadd application.  Arguments: the document variable name, path,
type tag, member name, raw value, and the stored document text (none when
the variable is unset).  Result: the JSONRESULT code and the document
write, present exactly when performed.  A missing or empty document is
replaced by a fresh array (no name) or object (name given) root and the
path is then treated as empty. -/
def jsonadd_exec (parse : String → Option Json) (dump : Json → String)
    (jsonvar path typ name value : String) (jsondoc : Option String) : ASTJSON × Option String :=
  if jsonvar = "" then (ASTJSON.ARG_NEEDED, none)
  else
    match mkNewObject typ value with
    | none => (ASTJSON.ARG_NEEDED, none)
    | some newobject =>
      if jsondoc.getD "" = "" then
        writeGate dump (addInto (if name = "" then Json.arr [] else Json.obj []) name newobject)
      else
        match parse (jsondoc.getD "") with
        | none => (ASTJSON.PARSE_ERROR, none)
        | some doc => writeGate dump (jsonaddCore doc path name newobject)

/-- The jsonset application.  Arguments: the document variable name, path,
raw replacement value, and the stored document text.  An empty stored
document is rejected as INVALID_TYPE before parsing. -/
def jsonset_exec (parse : String → Option Json) (dump : Json → String)
    (jsonvar path value source : String) : ASTJSON × Option String :=
  if jsonvar = "" then (ASTJSON.ARG_NEEDED, none)
  else if source = "" then (ASTJSON.INVALID_TYPE, none)
  else
    match parse source with
    | none => (ASTJSON.PARSE_ERROR, none)
    | some doc => writeGate dump (jsonsetCore parse doc path value)

/-- The jsondelete application.  Arguments: the document variable name,
path, and the stored document text.  An empty path reports OK immediately
and writes nothing; an empty stored document is NOTFOUND. -/
def jsondelete_exec (parse : String → Option Json) (dump : Json → String)
    (jsonvarname path source : String) : ASTJSON × Option String :=
  if jsonvarname = "" then (ASTJSON.ARG_NEEDED, none)
  else if path = "" then (ASTJSON.OK, none)
  else if source = "" then (ASTJSON.NOTFOUND, none)
  else
    match parse source with
    | none => (ASTJSON.PARSE_ERROR, none)
    | some doc => writeGate dump (jsondeleteCore doc path)

/-- A parser stub that accepts nothing, for invocations whose parse calls
are never consulted or must fail. -/
def parse0 : String → Option Json := fun _ => none

/-- A serializer stub with a fixed output, sufficient because no claim
inspects serialized text. -/
def dump0 : Json → String := fun _ => "J"

/-- A parser stub mapping the document text D to a one-member object
holding the integer 123 under key a. -/
def parseD : String → Option Json :=
  fun s => if s = "D" then some (Json.obj [("a", Json.integer 123)]) else none

/-- A parser stub mapping the document text A to a two-element array
document, a parsable document whose root is not an object. -/
def parseArr : String → Option Json :=
  fun s => if s = "A" then some (Json.arr [Json.integer 1, Json.integer 2]) else none

/-- Whether the sscanf %d conversion would match a segment: after
skipping isspace characters and at most one sign, the next character is a
decimal digit.  Stated independently of scanIndexL to characterize it. -/
def leadingScanDigit (s : List Char) : Bool :=
  match s.dropWhile isSpaceC with
  | [] => false
  | c :: rest =>
    if c = '-' ∨ c = '+' then
      match rest with
      | [] => false
      | d :: _ => d.isDigit
    else c.isDigit

/-- The type tags the jsonadd ladder recognizes.  The tag for an object
container is node; the word object is not accepted. -/
def recognizedTags : List String :=
  ["bool", "null", "number", "string", "array", "node"]



/-! ## Helper lemmas -/

theorem splitSlash_ne_nil : ∀ cs : List Char, splitSlash cs ≠ [] := by
  intro cs
  induction cs with
  | nil => simp [splitSlash]
  | cons c rest ih =>
    unfold splitSlash
    by_cases hc : c = '/'
    · simp [hc]
    · simp only [hc, if_false]
      cases h : splitSlash rest <;> simp

theorem list_set_lookup_self : ∀ (xs : List Json) (n : Nat) (c : Json),
    xs.get? n = some c → xs.set n c = xs := by
  intro xs
  induction xs with
  | nil => intro n c h; cases h
  | cons x rest ih =>
    intro n c h
    cases n with
    | zero =>
      simp only [List.get?] at h
      cases h
      rfl
    | succ m =>
      simp only [List.get?] at h
      simp [List.set, ih m c h]

theorem objSet_lookup_self : ∀ (kvs : List (String × Json)) (k : String) (c : Json),
    lookupKey kvs k = some c → objSet kvs k c = kvs := by
  intro kvs
  induction kvs with
  | nil => intro k c h; cases h
  | cons kv rest ih =>
    intro k c h
    obtain ⟨k0, v0⟩ := kv
    by_cases hk : k0 = k
    · subst hk
      unfold lookupKey at h
      rw [if_pos rfl] at h
      injection h with h
      subst h
      simp [objSet]
    · simp only [lookupKey, if_neg hk] at h
      simp [objSet, hk, ih k c h]

theorem get?_some_lt {xs : List Json} {n : Nat} {c : Json}
    (h : xs.get? n = some c) : n < xs.length := by
  rcases List.get?_eq_some.mp h with ⟨hlt, _⟩
  exact hlt

theorem updateSlot_lookup_self (parent : Json) (seg : List Char) (c : Json)
    (h : pathLookup parent seg = some c) : updateSlot parent seg c = parent := by
  unfold pathLookup at h
  unfold updateSlot
  cases hscan : scanIndexL seg with
  | some i =>
    rw [hscan] at h
    dsimp only
    cases parent with
    | arr xs =>
      dsimp only
      unfold jsonArrayGet at h
      dsimp only at h
      by_cases hi : 0 ≤ i
      · rw [if_pos hi] at h
        have hlt : i.toNat < xs.length := get?_some_lt h
        rw [if_pos ⟨hi, hlt⟩, list_set_lookup_self xs i.toNat c h]
      · rw [if_neg hi] at h
        cases h
    | null => simp [jsonArrayGet] at h
    | bool b => simp [jsonArrayGet] at h
    | integer n => simp [jsonArrayGet] at h
    | real q => simp [jsonArrayGet] at h
    | str s => simp [jsonArrayGet] at h
    | obj kvs => simp [jsonArrayGet] at h
  | none =>
    rw [hscan] at h
    dsimp only
    cases parent with
    | obj kvs =>
      unfold jsonObjectGet at h
      dsimp only at h
      dsimp only
      rw [objSet_lookup_self kvs (String.mk seg) c h]
    | null => simp [jsonObjectGet] at h
    | bool b => simp [jsonObjectGet] at h
    | integer n => simp [jsonObjectGet] at h
    | real q => simp [jsonObjectGet] at h
    | str s => simp [jsonObjectGet] at h
    | arr xs => simp [jsonObjectGet] at h

theorem setWalk_resolved_null_array :
    ∀ (rest : List (List Char)) (parse : String → Option Json) (thisobject t : Json)
      (seg : List Char) (value : String),
      resolvePath thisobject (seg :: rest) = some t →
      (t = Json.null ∨ ∃ xs, t = Json.arr xs) →
      setWalk parse thisobject seg rest value = (ASTJSON.INVALID_TYPE, thisobject) := by
  intro rest
  induction rest with
  | nil =>
    intro parse thisobject t seg value hres ht
    unfold resolvePath at hres
    cases hlk : pathLookup thisobject seg with
    | none => rw [hlk] at hres; cases hres
    | some child =>
      rw [hlk] at hres
      unfold resolvePath at hres
      cases hres
      unfold setWalk
      rw [hlk]
      rcases ht with h | ⟨xs, h⟩ <;> subst h <;> simp [coerceSet]
  | cons r rs ih =>
    intro parse thisobject t seg value hres ht
    unfold resolvePath at hres
    cases hlk : pathLookup thisobject seg with
    | none => rw [hlk] at hres; cases hres
    | some child =>
      rw [hlk] at hres
      dsimp only at hres
      unfold setWalk
      rw [hlk]
      dsimp only
      rw [ih parse child t r value hres ht]
      dsimp only
      rw [updateSlot_lookup_self thisobject seg child hlk]

/-! ## Claim theorems -/

/-- C1: the claim says a successful Set never changes the type of the
addressed node (for bool, number, string and object nodes).  The code
violates this for a number stored as an integer: the switch in
jsonset_exec falls through from the INTEGER case into the STRING case, so
setting the value of the integer 123 to abc succeeds and turns the node
into the string abc, changing its reported type from number to string,
contradicting the module's own documentation (which promises a 0). -/
theorem jsonset_integer_fallthrough :
    jsonsetCore parseD (Json.obj [("a", Json.integer 123)]) "/a" "abc"
        = (ASTJSON.OK, Json.obj [("a", Json.str "abc")]) ∧
    typeName (Json.integer 123) = "number" ∧
    typeName (Json.str "abc") = "string" ∧
    jsonset_exec parseD dump0 "v" "/a" "abc" "D" = (ASTJSON.OK, some "J") ∧
    resolvePath (Json.obj [("a", Json.str "abc")]) (pathSegs "/a") = some (Json.str "abc") :=
  ⟨rfl, rfl, rfl, rfl, rfl⟩

/-- C2: the claim says Get with an empty path returns the stored document
text.  The code instead copies args.json, the NAME of the document
variable, into the output buffer (while reporting OK and writing no
document), whatever text the variable holds. -/
theorem jsonelement_empty_path_returns_varname :
    jsonelement_exec parse0 dump0 "doc" "" "S" = (ASTJSON.OK, "doc", none) ∧
    "doc" ≠ "S" ∧
    (∀ source : String, (jsonelement_exec parse0 dump0 "doc" "" source).2.1 = "doc") :=
  ⟨rfl, by decide, fun _ => rfl⟩

/-- C3 counterexample: jsondelete with an empty path reports OK yet
performs no document write, so the operation does not write the document
variable if and only if the result is Ok, as the claim states. -/
theorem jsondelete_empty_path_ok_without_write :
    (jsondelete_exec parse0 dump0 "v" "" "D").1 = ASTJSON.OK ∧
    (jsondelete_exec parse0 dump0 "v" "" "D").2 = none :=
  ⟨rfl, rfl⟩

/-- C4: the claim says a successful Delete removes exactly the addressed
slot.  Because the strsep result at the bottom of the jsondelete loop
shadows the loop variable, deleting index 0 from the array holding 5 and
6 succeeds but removes BOTH elements (the loop keeps deleting index 0
until the lookup fails), and the two-segment path b then c over a nested
object is resolved with the first segment at every level, so it reports
NOTFOUND and deletes nothing. -/
theorem jsondelete_purges_array_tail :
    jsondeleteCore (Json.arr [Json.integer 5, Json.integer 6]) "/0"
        = (ASTJSON.OK, Json.arr []) ∧
    jsondeleteCore (Json.obj [("b", Json.obj [("c", Json.integer 1)])]) "/b/c"
        = (ASTJSON.NOTFOUND, Json.obj [("b", Json.obj [("c", Json.integer 1)])]) :=
  ⟨rfl, rfl⟩

/-- C5: for every document and every non-empty path whose resolution
reaches a node of type null or array, jsonset reports INVALID_TYPE (the
coercion switch builds no replacement for these types) and in particular
never reports OK. -/
theorem jsonset_null_array_invalid_type
    (parse : String → Option Json) (doc t : Json) (path value : String)
    (hpath : stripSlashes path.data ≠ [])
    (hres : resolvePath doc (pathSegs path) = some t)
    (ht : t = Json.null ∨ ∃ xs, t = Json.arr xs) :
    jsonsetCore parse doc path value = (ASTJSON.INVALID_TYPE, doc) ∧
    (jsonsetCore parse doc path value).1 ≠ ASTJSON.OK := by
  unfold pathSegs at hres
  unfold jsonsetCore
  cases hstrip : stripSlashes path.data with
  | nil => exact absurd hstrip hpath
  | cons c cs =>
    rw [hstrip] at hres
    cases hsplit : splitSlash (c :: cs) with
    | nil => exact absurd hsplit (splitSlash_ne_nil (c :: cs))
    | cons seg rest =>
      rw [hsplit] at hres
      dsimp only
      rw [hsplit]
      dsimp only
      rw [setWalk_resolved_null_array rest parse doc t seg value hres ht]
      exact ⟨rfl, fun h => ASTJSON.noConfusion h⟩

/-- C5 witness: setting the null member a of a one-member object through
the path slash a yields INVALID_TYPE and not OK. -/
theorem jsonset_null_array_invalid_type_check :
    jsonsetCore parse0 (Json.obj [("a", Json.null)]) "/a" "x"
        = (ASTJSON.INVALID_TYPE, Json.obj [("a", Json.null)]) ∧
    (jsonsetCore parse0 (Json.obj [("a", Json.null)]) "/a" "x").1 ≠ ASTJSON.OK :=
  jsonset_null_array_invalid_type parse0 (Json.obj [("a", Json.null)]) Json.null "/a" "x"
    (by decide) rfl (Or.inl rfl)

/-- C6 counterexample: the segment 1a is not purely numeric, so the claim
classifies it as an object key, and the document does hold the key 1a;
yet jsonelement reports NOTFOUND on the path slash 1a, because the sscanf
scan accepts the leading digit and classifies the segment as array index
1. -/
theorem segment_with_numeric_head_not_a_key :
    jsonelementCore dump0 (Json.obj [("1a", Json.integer 5)]) "/1a"
        = (ASTJSON.NOTFOUND, "", none) ∧
    jsonObjectGet (Json.obj [("1a", Json.integer 5)]) "1a" = some (Json.integer 5) ∧
    pathSegs "/1a" = [['1', 'a']] :=
  ⟨rfl, rfl, rfl⟩

/-- C7 counterexample: a parsable document whose root is an array makes
jsonvariables report OK (the code jumps to the exit label when the object
iterator is null), not PARSE_ERROR as the claim states; no variables are
set. -/
theorem jsonvariables_array_root_reports_ok :
    jsonvariables_exec parseArr dump0 "v" "A" = (ASTJSON.OK, []) ∧
    parseArr "A" = some (Json.arr [Json.integer 1, Json.integer 2]) ∧
    ASTJSON.OK ≠ ASTJSON.PARSE_ERROR :=
  ⟨rfl, rfl, by decide⟩

/-- C8 counterexample: jsonadd with the unrecognized type tag frobnicate
reports ARG_NEEDED (and writes nothing), not INVALID_TYPE as the claim
states. -/
theorem jsonadd_unknown_tag_reports_arg_needed :
    jsonadd_exec parse0 dump0 "v" "" "frobnicate" "" "" (some "D")
        = (ASTJSON.ARG_NEEDED, none) ∧
    ASTJSON.ARG_NEEDED ≠ ASTJSON.INVALID_TYPE :=
  ⟨rfl, by decide⟩

theorem writeGate_fst (dump : Json → String) (r : ASTJSON × Json) :
    (writeGate dump r).1 = r.1 := rfl

theorem writeGate_isSome_iff (dump : Json → String) (r : ASTJSON × Json) :
    (writeGate dump r).2.isSome = true ↔ (writeGate dump r).1 = ASTJSON.OK := by
  unfold writeGate
  by_cases h : r.1 = ASTJSON.OK <;> simp [h]

/-- C3 (amended): the mutating operations never write the document
variable on a non-Ok result; Add and Set write exactly when the result is
Ok, and Delete writes only when the result is Ok (with an empty path it
reports Ok without writing, so only the one direction holds there). -/
theorem json_mutations_write_only_on_ok
    (parse : String → Option Json) (dump : Json → String)
    (jv pa ty nm va src : String) (jd : Option String) :
    ((jsonadd_exec parse dump jv pa ty nm va jd).2.isSome = true ↔
      (jsonadd_exec parse dump jv pa ty nm va jd).1 = ASTJSON.OK) ∧
    ((jsonset_exec parse dump jv pa va src).2.isSome = true ↔
      (jsonset_exec parse dump jv pa va src).1 = ASTJSON.OK) ∧
    ((jsondelete_exec parse dump jv pa src).1 ≠ ASTJSON.OK →
      (jsondelete_exec parse dump jv pa src).2 = none) := by
  refine ⟨?_, ?_, ?_⟩
  · unfold jsonadd_exec
    split
    · simp
    · split
      · simp
      · split
        · exact writeGate_isSome_iff dump _
        · split
          · simp
          · exact writeGate_isSome_iff dump _
  · unfold jsonset_exec
    split
    · simp
    · split
      · simp
      · split
        · simp
        · exact writeGate_isSome_iff dump _
  · unfold jsondelete_exec
    split
    · intro _; rfl
    · split
      · intro _; rfl
      · split
        · intro _; rfl
        · split
          · intro _; rfl
          · intro h
            rw [writeGate_fst] at h
            unfold writeGate
            rw [if_neg h]

/-- C3 witness: jsondelete on an empty stored document reports NotFound
and writes nothing, and jsonadd on a missing document with the bool tag
writes exactly because it reports Ok. -/
theorem json_mutations_write_only_on_ok_check :
    (jsondelete_exec parse0 dump0 "v" "/a" "").2 = none ∧
    ((jsonadd_exec parse0 dump0 "v" "" "bool" "x" "1" none).2.isSome = true ↔
      (jsonadd_exec parse0 dump0 "v" "" "bool" "x" "1" none).1 = ASTJSON.OK) :=
  ⟨(json_mutations_write_only_on_ok parse0 dump0 "v" "/a" "bool" "x" "1" "" none).2.2
      (by decide),
   (json_mutations_write_only_on_ok parse0 dump0 "v" "" "bool" "x" "1" "" none).1⟩

theorem digit_not_spaceC {c : Char} (h : c.isDigit = true) : isSpaceC c = false := by
  cases hs : isSpaceC c
  · rfl
  · exfalso
    simp only [isSpaceC, Bool.or_eq_true, decide_eq_true_eq] at hs
    rcases hs with ((((rfl | rfl) | rfl) | rfl) | rfl) | rfl <;> exact absurd h (by decide)

theorem scanDigits_nil (w : Nat) : scanDigits [] w = none := by
  unfold scanDigits
  simp

theorem scanDigits_cons_isSome (c : Char) (rest : List Char) (w : Nat) :
    (scanDigits (c :: rest) (w + 1)).isSome = c.isDigit := by
  unfold scanDigits
  by_cases hc : c.isDigit
  · simp [List.take_succ_cons, List.takeWhile_cons, hc]
  · simp [List.take_succ_cons, List.takeWhile_cons, hc]

theorem scanIndex_leading (s : List Char) :
    (scanIndexL s).isSome = leadingScanDigit s := by
  unfold scanIndexL leadingScanDigit
  cases hd : s.dropWhile isSpaceC with
  | nil => rfl
  | cons c rest =>
    dsimp only
    by_cases hm : c = '-'
    · subst hm
      rw [if_pos rfl, if_pos (Or.inl rfl)]
      cases rest with
      | nil => rfl
      | cons d ds =>
        have hds := scanDigits_cons_isSome d ds 1
        cases hsd : scanDigits (d :: ds) 2 <;> rw [hsd] at hds <;> simpa using hds
    · by_cases hp : c = '+'
      · subst hp
        rw [if_neg (by decide), if_pos rfl, if_pos (Or.inr rfl)]
        cases rest with
        | nil => rfl
        | cons d ds =>
          have hds := scanDigits_cons_isSome d ds 1
          cases hsd : scanDigits (d :: ds) 2 <;> rw [hsd] at hds <;> simpa using hds
      · rw [if_neg hm, if_neg hp, if_neg (not_or.mpr ⟨hm, hp⟩)]
        have hds := scanDigits_cons_isSome c rest 2
        cases hsd : scanDigits (c :: rest) 3 <;> rw [hsd] at hds <;> simpa using hds

theorem takeWhile_all_digits (l : List Char) (h : ∀ c ∈ l, c.isDigit = true) :
    l.takeWhile Char.isDigit = l :=
  List.takeWhile_eq_self_iff.mpr h

theorem scanIndex_pure_digits (s : List Char) (hne : s ≠ [])
    (hlen : s.length ≤ 3) (hdig : ∀ c ∈ s, c.isDigit = true) :
    scanIndexL s = some (digitsToNat s) := by
  cases s with
  | nil => exact absurd rfl hne
  | cons c rest =>
    have hc : c.isDigit = true := hdig c (by simp)
    have hdrop : (c :: rest).dropWhile isSpaceC = c :: rest := by
      rw [List.dropWhile_cons]
      simp [digit_not_spaceC hc]
    unfold scanIndexL
    rw [hdrop]
    dsimp only
    have hm : ¬(c = '-') := fun e => by subst e; exact absurd hc (by decide)
    have hp : ¬(c = '+') := fun e => by subst e; exact absurd hc (by decide)
    rw [if_neg hm, if_neg hp]
    unfold scanDigits
    rw [List.take_of_length_le hlen, takeWhile_all_digits (c :: rest) hdig]
    simp

/-- C6 (amended): segment classification is total and exclusive, but it is
the sscanf leading scan, not a full parse: a segment scans as an index
exactly when, after optional isspace characters and at most one sign, a
decimal digit follows (the index value reads at most the first three
scanned characters); a purely numeric segment of at most three digits is
indexed by its value; an index segment is never looked up as an object
key and a non-index segment is never looked up as an array position, in
the pathLookup step shared by Get, Add, Set and Delete. -/
theorem scanIndex_classification (s : List Char) :
    ((scanIndexL s).isSome = leadingScanDigit s) ∧
    (s ≠ [] → s.length ≤ 3 → (∀ c ∈ s, c.isDigit = true) →
      scanIndexL s = some (digitsToNat s)) ∧
    (∀ kvs : List (String × Json), (scanIndexL s).isSome = true →
      pathLookup (Json.obj kvs) s = none) ∧
    (∀ xs : List Json, scanIndexL s = none →
      pathLookup (Json.arr xs) s = none) := by
  refine ⟨scanIndex_leading s, scanIndex_pure_digits s, ?_, ?_⟩
  · intro kvs hs
    unfold pathLookup
    cases h : scanIndexL s with
    | none => rw [h] at hs; cases hs
    | some i => rfl
  · intro xs h
    unfold pathLookup
    rw [h]
    rfl

/-- C6 witness: the purely numeric two-digit segment 42 scans as index 42
and, classified as an index, is never looked up as an object key even
when the object holds the key 42. -/
theorem scanIndex_classification_check :
    scanIndexL ['4', '2'] = some 42 ∧
    pathLookup (Json.obj [("42", Json.null)]) ['4', '2'] = none :=
  ⟨(scanIndex_classification ['4', '2']).2.1 (by decide) (by decide) (by decide),
   (scanIndex_classification ['4', '2']).2.2.1 [("42", Json.null)] (by decide)⟩

/-- C7 (amended): jsonvariables reports PARSE_ERROR exactly when the
parser rejects the stored text; a document that parses but whose root is
not an object makes the object iterator null, so the code jumps to the
exit label, sets no per-key variables and reports OK, not PARSE_ERROR. -/
theorem jsonvariables_root_dispatch
    (parse : String → Option Json) (dump : Json → String)
    (jv src : String) (hjv : jv ≠ "") :
    (parse src = none → jsonvariables_exec parse dump jv src = (ASTJSON.PARSE_ERROR, [])) ∧
    (∀ doc : Json, parse src = some doc → (∀ kvs, doc ≠ Json.obj kvs) →
      jsonvariables_exec parse dump jv src = (ASTJSON.OK, [])) := by
  constructor
  · intro hp
    unfold jsonvariables_exec
    rw [if_neg hjv, hp]
  · intro doc hp hobj
    unfold jsonvariables_exec
    rw [if_neg hjv, hp]
    cases doc with
    | obj kvs => exact absurd rfl (hobj kvs)
    | null => rfl
    | bool b => rfl
    | integer n => rfl
    | real q => rfl
    | str s => rfl
    | arr xs => rfl

/-- C7 witness: unparsable text gives PARSE_ERROR, and a parsable
two-element array root gives OK with no variables set. -/
theorem jsonvariables_root_dispatch_check :
    jsonvariables_exec parse0 dump0 "v" "x" = (ASTJSON.PARSE_ERROR, []) ∧
    jsonvariables_exec parseArr dump0 "v" "A" = (ASTJSON.OK, []) :=
  ⟨(jsonvariables_root_dispatch parse0 dump0 "v" "x" (by decide)).1 rfl,
   (jsonvariables_root_dispatch parseArr dump0 "v" "A" (by decide)).2
      (Json.arr [Json.integer 1, Json.integer 2]) rfl
      (fun kvs h => Json.noConfusion h)⟩

theorem mkNewObject_unrecognized (ty va : String)
    (h : recognizedTags.all (fun t => !strieq ty t) = true) :
    mkNewObject ty va = none := by
  simp only [recognizedTags, List.all_cons, List.all_nil, Bool.and_eq_true,
    Bool.and_true, Bool.not_eq_true'] at h
  obtain ⟨h1, h2, h3, h4, h5, h6⟩ := h
  unfold mkNewObject
  by_cases h0 : ty = ""
  · rw [if_pos h0]
  · simp [h0, h1, h2, h3, h4, h5, h6]

/-- C8 (amended): jsonadd with a type tag outside the recognized set
bool, null, number, string, array, node (note the object tag is node;
the word object itself is not recognized) reports ARG_NEEDED and leaves
the stored document unchanged (no write happens). -/
theorem jsonadd_unrecognized_tag
    (parse : String → Option Json) (dump : Json → String)
    (jv pa ty nm va : String) (jd : Option String)
    (hjv : jv ≠ "")
    (hur : recognizedTags.all (fun t => !strieq ty t) = true) :
    jsonadd_exec parse dump jv pa ty nm va jd = (ASTJSON.ARG_NEEDED, none) := by
  unfold jsonadd_exec
  rw [if_neg hjv, mkNewObject_unrecognized ty va hur]

/-- C8 witness: even the tag object is unrecognized and reports
ARG_NEEDED with no document write. -/
theorem jsonadd_unrecognized_tag_check :
    jsonadd_exec parse0 dump0 "v" "p" "object" "n" "x" (some "D")
        = (ASTJSON.ARG_NEEDED, none) :=
  jsonadd_unrecognized_tag parse0 dump0 "v" "p" "object" "n" "x" (some "D")
    (by decide) (by decide)

theorem atofMag_eq_zero_of (cs2 : List Char)
    (h1 : cs2.takeWhile Char.isDigit = [])
    (h2 : (match cs2.dropWhile Char.isDigit with
           | '.' :: rest => rest.takeWhile Char.isDigit
           | _ => []) = []) :
    atofMag cs2 = 0 := by
  simp only [atofMag, h1, h2]
  simp

theorem head_not_num_parts (cs2 : List Char) (h : headNotNumeric cs2 = true) :
    cs2.takeWhile Char.isDigit = [] ∧
    (match cs2.dropWhile Char.isDigit with
     | '.' :: rest => rest.takeWhile Char.isDigit
     | _ => []) = [] := by
  cases cs2 with
  | nil => exact ⟨rfl, rfl⟩
  | cons c rest =>
    unfold headNotNumeric at h
    dsimp only at h
    by_cases hc : c = '.'
    · rw [if_pos hc] at h
      subst hc
      cases rest with
      | nil => exact ⟨rfl, rfl⟩
      | cons d ds =>
        dsimp only at h
        have hd : d.isDigit = false := by
          cases hdig : d.isDigit
          · rfl
          · rw [hdig] at h; cases h
        refine ⟨rfl, ?_⟩
        show (d :: ds).takeWhile Char.isDigit = []
        rw [List.takeWhile_cons, hd]
        simp
    · rw [if_neg hc] at h
      have hcd : c.isDigit = false := by
        cases hdig : c.isDigit
        · rfl
        · rw [hdig] at h; cases h
      constructor
      · rw [List.takeWhile_cons, hcd]
        simp
      · rw [List.dropWhile_cons, hcd]
        simp only [Bool.false_eq_true, if_false]
        split
        · next r heq =>
          injection heq with he1 he2
          exact absurd he1 hc
        · rfl

theorem atofMag_head_not_num (cs2 : List Char) (h : headNotNumeric cs2 = true) :
    atofMag cs2 = 0 :=
  atofMag_eq_zero_of cs2 (head_not_num_parts cs2 h).1 (head_not_num_parts cs2 h).2

/-- C9: jsonadd with the number type tag always builds
ast_json_real_create(atof(value)) - a real node, never an integer node,
whatever the raw value looks like - and a raw value with no numeric
subject sequence (in particular any non-numeric string) converts to the
number 0.  The atof payload is modelled by its decimal grammar over the
rationals. -/
theorem jsonadd_number_always_real (value : String) :
    mkNewObject "number" value = some (Json.real (atofQ value)) ∧
    (atofSubjectEmpty value = true → atofQ value = 0) ∧
    (∀ n : Int, Json.real (atofQ value) ≠ Json.integer n) := by
  refine ⟨rfl, ?_, fun n h => Json.noConfusion h⟩
  intro h
  unfold atofSubjectEmpty at h
  unfold atofQ atofL
  cases hd : value.data.dropWhile isSpaceC with
  | nil =>
    rw [hd] at h
    exact atofMag_head_not_num [] h
  | cons c rest =>
    rw [hd] at h
    dsimp only at h ⊢
    by_cases hm : c = '-'
    · rw [if_pos hm] at h ⊢
      rw [atofMag_head_not_num rest h, neg_zero]
    · rw [if_neg hm] at h ⊢
      by_cases hp : c = '+'
      · rw [if_pos hp] at h ⊢
        exact atofMag_head_not_num rest h
      · rw [if_neg hp] at h ⊢
        exact atofMag_head_not_num (c :: rest) h

/-- C9 witness: the non-numeric raw value abc builds a real node whose
payload atof converts to the number 0. -/
theorem jsonadd_number_always_real_check :
    mkNewObject "number" "abc" = some (Json.real (atofQ "abc")) ∧
    atofQ "abc" = 0 :=
  ⟨(jsonadd_number_always_real "abc").1,
   (jsonadd_number_always_real "abc").2.1 (by decide)⟩

/-- C10: both jsonelement_exec and jsonvariables_exec print a number
stored as an integer with %d after a cast to int, modelled as the wrap32
reduction: the rendered text is the decimal of wrap32, wrap32 is the
identity on every value representable in 32 bits (from -2147483648
through 2147483647), it preserves the value modulo 4294967296 (2 to the
32) and always lands back in the 32-bit signed range. -/
theorem integer_render_32bit (dump : Json → String) (n : Int) :
    renderValue dump (Json.integer n) = toString (wrap32 n) ∧
    renderVar dump (Json.integer n) = toString (wrap32 n) ∧
    (-2147483648 ≤ n → n < 2147483648 → wrap32 n = n) ∧
    wrap32 n % 4294967296 = n % 4294967296 ∧
    -2147483648 ≤ wrap32 n ∧ wrap32 n < 2147483648 := by
  refine ⟨rfl, rfl, ?_, ?_, ?_, ?_⟩ <;> unfold wrap32 <;> omega

/-- C10 witness: the in-range value 5 renders as the decimal of wrap32 5
and wrap32 leaves it unchanged. -/
theorem integer_render_32bit_check :
    renderValue dump0 (Json.integer 5) = toString (wrap32 5) ∧ wrap32 5 = 5 :=
  ⟨(integer_render_32bit dump0 5).1,
   (integer_render_32bit dump0 5).2.2.1 (by norm_num) (by norm_num)⟩
